import Mathlib

/-
  Verification development for the RadioLive browser radio player
  (src/app.js).  The definitions below are a shallow embedding of the
  bulletin-resolution and playback-state logic of `app.js`; each
  definition's doc comment names the source function it embeds.
-/

namespace RadioLive

/-- A wall-clock reading in the Pacific/Auckland zone, as produced by
`getNZDTTime` (app.js:279-315).  Only the fields consumed by the bulletin
resolver (`formatRNZDate`, `formatZBDate`, `setHours`) are modelled;
minutes and seconds are never read by that code. -/
structure ClockReading where
  year : Nat
  month : Nat
  day : Nat
  hour : Nat
deriving DecidableEq, Repr

/-- Gregorian leap-year rule, as implemented by the JavaScript `Date`
normalization the source relies on via `setHours` (app.js:338, 346). -/
def isLeapYear (y : Nat) : Bool :=
  (y % 4 == 0 && y % 100 != 0) || y % 400 == 0

/-- Number of days in a month of the Gregorian calendar used by the
JavaScript `Date` normalization. -/
def daysInMonth (y m : Nat) : Nat :=
  match m with
  | 1 => 31
  | 2 => if isLeapYear y then 29 else 28
  | 3 => 31
  | 4 => 30
  | 5 => 31
  | 6 => 30
  | 7 => 31
  | 8 => 31
  | 9 => 30
  | 10 => 31
  | 11 => 30
  | 12 => 31
  | _ => 31

/-- A clock reading that denotes an actual calendar instant. -/
def ValidReading (c : ClockReading) : Prop :=
  1 ≤ c.year ∧ 1 ≤ c.month ∧ c.month ≤ 12 ∧
  1 ≤ c.day ∧ c.day ≤ daysInMonth c.year c.month ∧ c.hour ≤ 23

instance (c : ClockReading) : Decidable (ValidReading c) := by
  unfold ValidReading; infer_instance

/-- The previous calendar day, borrowing across month and year
boundaries (JavaScript `Date` normalization). -/
def prevDay (c : ClockReading) : ClockReading :=
  if 2 ≤ c.day then { c with day := c.day - 1 }
  else if 2 ≤ c.month then
    { c with month := c.month - 1, day := daysInMonth c.year (c.month - 1) }
  else
    { year := c.year - 1, month := 12, day := 31, hour := c.hour }

/-- `now.setHours(now.getHours() - hoursBack)` (app.js:338, 346, 384):
subtract `hoursBack` whole hours with calendar borrowing.  The source
only ever uses `hoursBack` equal to 0 or 1, so a single day borrow
suffices; the model covers every `hoursBack` up to 24. -/
def subHours (c : ClockReading) (hoursBack : Nat) : ClockReading :=
  if hoursBack ≤ c.hour then { c with hour := c.hour - hoursBack }
  else { prevDay c with hour := c.hour + 24 - hoursBack }

/-- `String(n).padStart(2, '0')` applied to a decimal number
(app.js:320-322, 329-331, 355, 385). -/
def pad2 (n : Nat) : String :=
  if n < 10 then "0" ++ toString n else toString n

/-- `formatRNZDate` (app.js:318-324): `YYYYMMDD-HH00`. -/
def formatRNZDate (c : ClockReading) : String :=
  toString c.year ++ pad2 c.month ++ pad2 c.day ++ "-" ++ pad2 c.hour ++ "00"

/-- `formatZBDate` (app.js:327-333): `YYYY.MM.DD-HH.00.00`. -/
def formatZBDate (c : ClockReading) : String :=
  toString c.year ++ "." ++ pad2 c.month ++ "." ++ pad2 c.day ++ "-" ++
    pad2 c.hour ++ ".00.00"

/-- `getRNZNewsURL` (app.js:336-341), with the clock reading passed
explicitly in place of the `getNZDTTime()` call. -/
def getRNZNewsURL (c : ClockReading) (hoursBack : Nat) : String :=
  "https://podcast.radionz.co.nz/news/" ++ formatRNZDate (subHours c hoursBack) ++
    "-064.mp3"

/-- `getZBNewsURL` (app.js:344-349), with the clock reading passed
explicitly in place of the `getNZDTTime()` call. -/
def getZBNewsURL (c : ClockReading) (hoursBack : Nat) : String :=
  "https://weekondemand.newstalkzb.co.nz/WeekOnDemand/ZB/auckland/" ++
    formatZBDate (subHours c hoursBack) ++ "-D.mp3"

/-- The two bulletin sources, the `type` strings `'rnz'` and
`'newstalkzb'` of the source (app.js:376, 381, 404). -/
inductive NewsType
  | rnz
  | newstalkzb
deriving DecidableEq, Repr

/-- The ternary `type === 'rnz' ? getRNZNewsURL(...) : getZBNewsURL(...)`
at app.js:381. -/
def getNewsURL (ty : NewsType) (c : ClockReading) (hoursBack : Nat) : String :=
  match ty with
  | .rnz => getRNZNewsURL c hoursBack
  | .newstalkzb => getZBNewsURL c hoursBack

/-! Linearization of calendar readings, used to state that the borrow
performed by `subHours` agrees with counting whole hours. -/

/-- Number of leap years in the range `[1, n]`. -/
def leapCount (n : Nat) : Nat := n / 4 - n / 100 + n / 400

/-- Days in the months of year `y` strictly before month `m`. -/
def daysBeforeMonth (y : Nat) : Nat → Nat
  | 0 => 0
  | 1 => 0
  | m + 2 => daysBeforeMonth y (m + 1) + daysInMonth y (m + 1)

/-- Absolute day count of a reading (day 0 = January 1 of year 1). -/
def dayIndex (c : ClockReading) : Nat :=
  365 * (c.year - 1) + leapCount (c.year - 1) +
    daysBeforeMonth c.year c.month + (c.day - 1)

/-- Absolute hour count of a reading. -/
def hourIndex (c : ClockReading) : Nat :=
  24 * dayIndex c + c.hour

/-! String primitives of the JavaScript host used by the source:
`String.prototype.endsWith` and `String.prototype.includes`, modelled
over character lists so that they evaluate in the kernel. -/

/-- Character-list version of `startsWith`. -/
def listStarts : List Char → List Char → Bool
  | [], _ => true
  | _ :: _, [] => false
  | p :: ps, c :: cs => p == c && listStarts ps cs

/-- Character-list version of `includes`: does `pat` occur as a
contiguous segment of `l`? -/
def listHas (pat : List Char) : List Char → Bool
  | [] => pat.isEmpty
  | c :: cs => listStarts pat (c :: cs) || listHas pat cs

/-- JavaScript `s.endsWith(pat)`. -/
def strEnds (s pat : String) : Bool :=
  listStarts pat.toList.reverse s.toList.reverse

/-- JavaScript `s.includes(pat)`. -/
def strHas (s pat : String) : Bool :=
  listHas pat.toList s.toList

/-! The bulletin classifier `isBulletinUrl` (app.js:91-103) and the
session classification at app.js:1013. -/

/-- The hostname and pathname of a successfully parsed URL; `new URL`
itself is a host primitive, so the classifier receives its result,
with `none` standing for a parse failure (the `catch` branch). -/
structure UrlParts where
  hostname : String
  pathname : String
deriving DecidableEq, Repr

/-- The known bulletin hosts listed at app.js:95-98. -/
def bulletinHosts : List String :=
  ["podcast.radionz.co.nz", "weekondemand.newstalkzb.co.nz"]

/-- `isBulletinUrl` (app.js:91-103): `.mp3` path or a hostname
containing a known bulletin host; `false` when `new URL` throws. -/
def isBulletinUrl (parsed : Option UrlParts) : Bool :=
  match parsed with
  | none => false
  | some p =>
    strEnds p.pathname ".mp3" || bulletinHosts.any (fun host => strHas p.hostname host)

/-- The classification at app.js:1013:
`isBulletinUrl(url) || name.includes('News')`. -/
def stationIsBulletin (parsedUrl : Option UrlParts) (name : String) : Bool :=
  isBulletinUrl parsedUrl || strHas name "News"

/-! Bulletin button labels and loaded-bulletin markers
(`loadedBulletinTimes`, `updateNewsButtonTimes`, app.js:4-7, 352-373,
and the reset at app.js:513-515). -/

/-- The marker/label state: `loadedBulletinTimes.rnz/.newstalkzb`
(`none` = unset) and the two button label texts. -/
structure NewsUI where
  rnzMarker : Option String
  zbMarker : Option String
  rnzLabel : String
  zbLabel : String
deriving DecidableEq, Repr

/-- `updateNewsButtonTimes` (app.js:352-373): rewrite a button label
from the clock only when that source's marker is unset. -/
def updateNewsButtonTimes (s : NewsUI) (c : ClockReading) : NewsUI :=
  let timeStr := pad2 c.hour ++ ":00"
  { s with
    rnzLabel := match s.rnzMarker with
      | none => timeStr ++ " bulletin"
      | some _ => s.rnzLabel
    zbLabel := match s.zbMarker with
      | none => timeStr ++ " bulletin"
      | some _ => s.zbLabel }

/-- The station-button click path (app.js:512-515): reset both markers,
then refresh the labels. -/
def selectLiveStation (s : NewsUI) (c : ClockReading) : NewsUI :=
  updateNewsButtonTimes { s with rnzMarker := none, zbMarker := none } c

/-! Result-level model of one `loadNewsBulletin` run
(app.js:376-460).  A probe attempt's test audio fires either `canplay`
or `error`; the run is a function of those outcomes.  The host clock is
modelled as one `ClockReading` per attempt (the source re-reads the
clock inside a single attempt; the readings of one attempt are taken to
coincide). -/

/-- Which of the two observers of a probe attempt fires first. -/
inductive ProbeOutcome
  | playable
  | failed
deriving DecidableEq, Repr

/-- One `loadStation` invocation made by the run: its URL, the hour
label applied to the button/marker (`none` on the give-up path, where
no hour label is applied), and the display name passed. -/
structure ResolvedCall where
  url : String
  labelHour : Option String
  displayName : String
deriving DecidableEq, Repr

/-- Observable result of a `loadNewsBulletin` run: the `loadStation`
calls it makes, the number of failure toasts it shows, and the final
value of `loadedBulletinTimes[type]` (`none` = left null). -/
structure ProbeRunOutcome where
  resolved : List ResolvedCall
  failureToasts : Nat
  marker : Option String
deriving DecidableEq, Repr

/-- `tryLoadBulletin(attemptHoursBack)` (app.js:380-457) viewed at the
result level.  `clock k` is the reading during attempt `k`, `outcome k`
tells which observer of attempt `k` fires.  The `fuel` argument bounds
the recursion; the source recursion only ever takes the step from
attempt 0 to attempt 1 (guarded by `attemptHoursBack === 0`). -/
def tryLoadBulletinRun (ty : NewsType) (name : String)
    (clock : Nat → ClockReading) (outcome : Nat → ProbeOutcome) :
    Nat → Nat → ProbeRunOutcome
  | _, 0 => ⟨[], 0, none⟩
  | attemptHoursBack, fuel + 1 =>
    let c := clock attemptHoursBack
    let url := getNewsURL ty c attemptHoursBack
    let hour := pad2 ((subHours c attemptHoursBack).hour)
    match outcome attemptHoursBack with
    | .playable =>
      { resolved := [⟨url, some hour, name ++ " " ++ hour ++ ":00 News"⟩],
        failureToasts := 0,
        marker := some hour }
    | .failed =>
      if attemptHoursBack = 0 then
        tryLoadBulletinRun ty name clock outcome 1 fuel
      else
        { resolved := [⟨url, none, name ++ " News"⟩],
          failureToasts := 1,
          marker := none }

/-- `loadNewsBulletin` (app.js:376-460): start at `hoursBack = 0`; one
unit of fuel suffices for the single fallback retry. -/
def loadNewsBulletinRun (ty : NewsType) (name : String)
    (clock : Nat → ClockReading) (outcome : Nat → ProbeOutcome) : ProbeRunOutcome :=
  tryLoadBulletinRun ty name clock outcome 0 2

/-! Resource-level model of audio handles and their observers.  Audio
elements are identified by creation order; each primitive DOM/media
operation the source performs is one `Act`, so that the order of
releases, detachments and creations is visible in a trace. -/

/-- The audio lifecycle events the source attaches observers for. -/
inductive AudioEvent
  | canplay
  | error
  | waiting
  | playing
  | ended
  | loadedmetadata
  | durationchange
  | timeupdate
deriving DecidableEq, Repr

/-- One primitive operation on an audio handle: `pause()`, `src = ''`,
`new Audio(url)`, `addEventListener`, `removeEventListener`. -/
inductive Act
  | pause (h : Nat)
  | clearSrc (h : Nat)
  | create (h : Nat)
  | add (h : Nat) (e : AudioEvent)
  | remove (h : Nat) (e : AudioEvent)
deriving DecidableEq, Repr

/-- Effect of one `Act` on the attached-observer sets of all handles
(`addEventListener` appends one registration; `removeEventListener`
removes one matching registration). -/
def applyAct (m : Nat → List AudioEvent) : Act → Nat → List AudioEvent
  | .add h e => fun k => if k = h then m k ++ [e] else m k
  | .remove h e => fun k => if k = h then (m k).erase e else m k
  | _ => m

/-- Effect of a trace of operations on the attached-observer sets. -/
def applyActs (m : Nat → List AudioEvent) (l : List Act) : Nat → List AudioEvent :=
  l.foldl applyAct m

/-- The probe-side globals: `currentTestAudio` (the handle it refers
to, if any) and the next fresh handle identity. -/
structure ProbeSt where
  currentTestAudio : Option Nat
  nextHandle : Nat
deriving DecidableEq, Repr

/-- Entry of `tryLoadBulletin` (app.js:389-398, 455-456): clean up the
previous test audio if it exists (`pause()`, `src = ''`, drop the
reference — the source removes no listeners here), then create the new
test audio and register its `canplay` and `error` observers. -/
def probeAttemptStart (st : ProbeSt) : List Act × ProbeSt :=
  let cleanup : List Act × ProbeSt :=
    match st.currentTestAudio with
    | some h => ([Act.pause h, Act.clearSrc h], { st with currentTestAudio := none })
    | none => ([], st)
  let st1 := cleanup.2
  let h := st1.nextHandle
  (cleanup.1 ++ [Act.create h, Act.add h .canplay, Act.add h .error],
   { currentTestAudio := some h, nextHandle := h + 1 })

/-- The `canplay` observer's cleanup (app.js:417-419): detach both
observers of its own handle and drop the reference. -/
def probeCanplayFinish (h : Nat) (st : ProbeSt) : List Act × ProbeSt :=
  ([Act.remove h .canplay, Act.remove h .error],
   { st with currentTestAudio := none })

/-- The `error` observer of the `hoursBack = 0` attempt
(app.js:422-435): detach both observers of its own handle, release it
(`pause()`, `src = ''`), drop the reference, then retry via
`tryLoadBulletin(1)`. -/
def probeErrorRetry (h : Nat) (st : ProbeSt) : List Act × ProbeSt :=
  let cleanup := [Act.remove h .canplay, Act.remove h .error, Act.pause h, Act.clearSrc h]
  let next := probeAttemptStart { st with currentTestAudio := none }
  (cleanup ++ next.1, next.2)

/-- The playback-side globals: `audio` (the handle it refers to, if
any), the tracked listener list `currentAudioListeners`, and the next
fresh handle identity. -/
structure PlayerSt where
  audio : Option Nat
  currentAudioListeners : List AudioEvent
  nextHandle : Nat
deriving DecidableEq, Repr

/-- The eight observers `loadStation` attaches, in source order
(app.js:943, 977, 984, 996, 1010, 1025, 1033, 1041). -/
def playerEvents : List AudioEvent :=
  [.canplay, .error, .waiting, .playing, .ended,
   .loadedmetadata, .durationchange, .timeupdate]

/-- `loadStation` (app.js:915-1064) at the resource level: if an audio
handle is live, pause it and remove every listener recorded in
`currentAudioListeners`, drop the reference; then create the new handle
and attach the eight observers, recording each. -/
def loadStationStep (st : PlayerSt) : List Act × PlayerSt :=
  let cleanup : List Act × PlayerSt :=
    match st.audio with
    | some h =>
      (Act.pause h :: st.currentAudioListeners.map (Act.remove h),
       { st with audio := none, currentAudioListeners := [] })
    | none => ([], st)
  let st1 := cleanup.2
  let h := st1.nextHandle
  (cleanup.1 ++ Act.create h :: playerEvents.map (Act.add h),
   { audio := some h, currentAudioListeners := playerEvents, nextHandle := h + 1 })

/-! Seek operations (app.js:603-679 and the media-session handlers at
app.js:75-88).  Times are rationals; `duration = none` models a
non-finite duration (`NaN` or `Infinity`), for which `isFinite` is
false.  Assigning `currentTime` is modelled as writing the assigned
position. -/

/-- The fields of the audio element the seek paths read. -/
structure AudioSt where
  duration : Option ℚ
  seekableLen : Nat
  currentTime : ℚ
deriving DecidableEq, Repr

/-- `Math.max` / `Math.min` on finite numbers. -/
def jsMax (x y : ℚ) : ℚ := if x ≤ y then y else x

/-- `Math.min` on finite numbers. -/
def jsMin (x y : ℚ) : ℚ := if x ≤ y then x else y

/-- `isSeekableAudio` (app.js:603-605): the audio exists, its duration
is finite and positive, and it reports a non-empty seekable range. -/
def isSeekableAudio : Option AudioSt → Bool
  | none => false
  | some a =>
    match a.duration with
    | none => false
    | some d => decide (0 < d) && decide (0 < a.seekableLen)

/-- The skip-back button handler (app.js:663-670):
`max(0, currentTime - 15)`, guarded by `isSeekableAudio`. -/
def skipBack (s : Option AudioSt) : Option AudioSt :=
  if isSeekableAudio s then
    match s with
    | some a => some { a with currentTime := jsMax 0 (a.currentTime - 15) }
    | none => s
  else s

/-- The skip-forward button handler (app.js:671-679):
`min(duration || 0, currentTime + 15)`, guarded by `isSeekableAudio`. -/
def skipForward (s : Option AudioSt) : Option AudioSt :=
  if isSeekableAudio s then
    match s with
    | some a =>
      some { a with currentTime := jsMin (a.duration.getD 0) (a.currentTime + 15) }
    | none => s
  else s

/-- The scrub-slider input handler (app.js:640-646):
`max(0, min(duration || 0, value))`, guarded by `isSeekableAudio`. -/
def scrubInput (s : Option AudioSt) (value : ℚ) : Option AudioSt :=
  if isSeekableAudio s then
    match s with
    | some a =>
      some { a with currentTime := jsMax 0 (jsMin (a.duration.getD 0) value) }
    | none => s
  else s

/-- `details.seekOffset || 15` (app.js:77, 82): a missing or zero
offset becomes 15. -/
def seekOffsetOr15 (offset : Option ℚ) : ℚ :=
  match offset with
  | none => 15
  | some o => if o = 0 then 15 else o

/-- The media-session `seekbackward` handler (app.js:75-79): guarded
only by the handle existing and `isFinite(duration)`. -/
def msSeekBackward (s : Option AudioSt) (offset : Option ℚ) : Option AudioSt :=
  match s with
  | none => s
  | some a =>
    match a.duration with
    | none => s
    | some _ =>
      some { a with currentTime := jsMax 0 (a.currentTime - seekOffsetOr15 offset) }

/-- The media-session `seekforward` handler (app.js:80-84): guarded
only by the handle existing and `isFinite(duration)`. -/
def msSeekForward (s : Option AudioSt) (offset : Option ℚ) : Option AudioSt :=
  match s with
  | none => s
  | some a =>
    match a.duration with
    | none => s
    | some d =>
      some { a with currentTime := jsMin d (a.currentTime + seekOffsetOr15 offset) }

/-- The media-session `seekto` handler (app.js:85-88): guarded only by
the handle existing, `isFinite(duration)` and `seekTime` being
defined; writes `min(duration, max(0, seekTime))`. -/
def msSeekTo (s : Option AudioSt) (seekTime : Option ℚ) : Option AudioSt :=
  match s, seekTime with
  | none, _ => s
  | _, none => s
  | some a, some t =>
    match a.duration with
    | none => s
    | some d => some { a with currentTime := jsMin d (jsMax 0 t) }

/-! The 95bFM metadata failure counter (`bfmMetadataFailures`,
app.js:117, 1067-1182). -/

/-- Outcome of one `fetch95bFMNowPlaying` call while 95bFM is the
current station: either the fetch/parse pipeline threw or timed out
(the `catch` path), or it completed, extracting `trackInfo` (`none`
when no candidate string passed the filters). -/
inductive FetchOutcome
  | failure
  | success (trackInfo : Option String)
deriving DecidableEq, Repr

/-- The metadata globals: consecutive-failure counter, last displayed
track (`lastBfmTrackInfo`), and the number of warning toasts shown. -/
structure BfmState where
  failures : Nat
  lastTrack : Option String
  warnings : Nat
deriving DecidableEq, Repr

/-- One `fetch95bFMNowPlaying` call (app.js:1067-1182), current station
95bFM throughout.  On completion the counter is reset only inside the
branch that found a track different from `lastBfmTrackInfo`
(app.js:1120-1137); the `catch` path increments the counter and shows
one warning exactly when it reaches 3 (app.js:1147-1165). -/
def fetchStep (st : BfmState) (o : FetchOutcome) : BfmState :=
  match o with
  | .success trackInfo =>
    match trackInfo with
    | some t =>
      if some t ≠ st.lastTrack then
        { st with lastTrack := some t, failures := 0 }
      else st
    | none => st
  | .failure =>
    let f := st.failures + 1
    let w := if f = 3 then st.warnings + 1 else st.warnings
    { st with failures := f, warnings := w }

/-- A sequence of fetch outcomes applied in order. -/
def runFetches (st : BfmState) (l : List FetchOutcome) : BfmState :=
  l.foldl fetchStep st

/-- The initial metadata state (app.js:9, 117). -/
def bfmInit : BfmState := ⟨0, none, 0⟩

/-! Supporting lemmas. -/

theorem daysInMonth_pos (y m : Nat) : 1 ≤ daysInMonth y m := by
  unfold daysInMonth
  split <;> (try split) <;> omega

theorem daysInMonth_le (y m : Nat) : daysInMonth y m ≤ 31 := by
  unfold daysInMonth
  split <;> (try split) <;> omega

theorem pad2_length (n : Nat) (h : n < 100) : (pad2 n).length = 2 := by
  revert h
  revert n
  decide

/-- Field bounds are preserved by the borrow in `subHours`. -/
theorem subHours_bounds (c : ClockReading) (h : Nat)
    (hm1 : 1 ≤ c.month) (hm2 : c.month ≤ 12)
    (hd1 : 1 ≤ c.day) (hd2 : c.day ≤ 31) (hh : c.hour ≤ 23) :
    1 ≤ (subHours c h).month ∧ (subHours c h).month ≤ 12 ∧
    1 ≤ (subHours c h).day ∧ (subHours c h).day ≤ 31 ∧
    (subHours c h).hour ≤ 23 := by
  have h31 := daysInMonth_le c.year (c.month - 1)
  have h1 := daysInMonth_pos c.year (c.month - 1)
  unfold subHours prevDay
  split_ifs <;> simp_all <;> omega

/-- `subHours` preserves validity of readings from year 2 on. -/
theorem valid_subHours (c : ClockReading) (h : Nat)
    (hc : ValidReading c) (hy : 2 ≤ c.year) : ValidReading (subHours c h) := by
  obtain ⟨h1, h2, h3, h4, h5, h6⟩ := hc
  have hp := daysInMonth_pos c.year (c.month - 1)
  have hdec : daysInMonth (c.year - 1) 12 = 31 := rfl
  unfold subHours prevDay ValidReading
  split_ifs <;> simp_all <;> omega

theorem lit_rnz_tail : "00" ++ "-064.mp3" = "00-064.mp3" := rfl

theorem lit_zb_tail : ".00.00" ++ "-D.mp3" = ".00.00-D.mp3" := rfl

theorem daysBeforeMonth_succ (y m : Nat) (h : 1 ≤ m) :
    daysBeforeMonth y (m + 1) = daysBeforeMonth y m + daysInMonth y m := by
  match m, h with
  | k + 1, _ => rfl

theorem daysBeforeMonth_year (y : Nat) :
    daysBeforeMonth y 12 + daysInMonth y 12 =
      365 + (if isLeapYear y = true then 1 else 0) := by
  cases h : isLeapYear y <;>
    simp [daysBeforeMonth, daysInMonth, h]

theorem leapCount_succ (n : Nat) :
    leapCount (n + 1) = leapCount n + (if isLeapYear (n + 1) = true then 1 else 0) := by
  have e4 : (n + 1) / 4 = n / 4 + if 4 ∣ n + 1 then 1 else 0 := Nat.succ_div n 4
  have e100 : (n + 1) / 100 = n / 100 + if 100 ∣ n + 1 then 1 else 0 := Nat.succ_div n 100
  have e400 : (n + 1) / 400 = n / 400 + if 400 ∣ n + 1 then 1 else 0 := Nat.succ_div n 400
  have d1 : n / 100 ≤ n / 4 := Nat.div_le_div_left (by omega) (by omega)
  have d2 : n / 400 ≤ n / 100 := Nat.div_le_div_left (by omega) (by omega)
  have hl : isLeapYear (n + 1) = true ↔
      (((n + 1) % 4 = 0 ∧ ¬(n + 1) % 100 = 0) ∨ (n + 1) % 400 = 0) := by
    simp [isLeapYear]
  unfold leapCount
  rw [e4, e100, e400]
  split_ifs with h1 h2 h3 h4 <;> rw [hl] at * <;> omega

/-- `dayIndex` drops by one when moving to the previous calendar day. -/
theorem dayIndex_prevDay (c : ClockReading) (hc : ValidReading c)
    (hy : 2 ≤ c.year) : dayIndex (prevDay c) + 1 = dayIndex c := by
  obtain ⟨h1, h2, h3, h4, h5, h6⟩ := hc
  unfold prevDay
  split_ifs with hd hm
  · simp only [dayIndex]
    omega
  · have hstep := daysBeforeMonth_succ c.year (c.month - 1) (by omega)
    have hpos := daysInMonth_pos c.year (c.month - 1)
    have : c.month - 1 + 1 = c.month := by omega
    rw [this] at hstep
    simp only [dayIndex]
    omega
  · have hmonth : c.month = 1 := by omega
    have hyear := daysBeforeMonth_year (c.year - 1)
    have hlc := leapCount_succ (c.year - 1 - 1)
    have hy1 : c.year - 1 - 1 + 1 = c.year - 1 := by omega
    rw [hy1] at hlc
    have hdec : daysInMonth (c.year - 1) 12 = 31 := rfl
    have hb1 : daysBeforeMonth c.year 1 = 0 := rfl
    simp only [dayIndex, hmonth, hb1]
    rw [hdec] at hyear
    cases hleap : isLeapYear (c.year - 1) <;> simp [hleap] at hyear hlc <;> omega

theorem dayIndex_hour_irrel (x : ClockReading) (v : Nat) :
    dayIndex { x with hour := v } = dayIndex x := rfl

/-- `hourIndex` drops by one under `subHours _ 1`. -/
theorem hourIndex_subHours_one (c : ClockReading) (hc : ValidReading c)
    (hy : 2 ≤ c.year) : hourIndex (subHours c 1) + 1 = hourIndex c := by
  have hprev := dayIndex_prevDay c hc hy
  unfold subHours
  split_ifs with hh
  · simp only [hourIndex, dayIndex]
    omega
  · have hzero : c.hour = 0 := by omega
    simp only [hourIndex, dayIndex_hour_irrel, hzero]
    omega

/-! ## Claim theorems -/

/-- C5.  For every valid clock reading, the resolver produces for
Source A (RNZ) exactly
`https://podcast.radionz.co.nz/news/YYYYMMDD-HH00-064.mp3` and for
Source B (NewstalkZB) exactly
`https://weekondemand.newstalkzb.co.nz/WeekOnDemand/ZB/auckland/YYYY.MM.DD-HH.00.00-D.mp3`,
where the month, day and 24-hour hour fields of the (shifted) reading
are zero-padded to exactly two digits. -/
theorem C5_resolver_url_format (c : ClockReading) (hoursBack : Nat)
    (hc : ValidReading c) :
    getRNZNewsURL c hoursBack =
      "https://podcast.radionz.co.nz/news/" ++
        toString (subHours c hoursBack).year ++ pad2 (subHours c hoursBack).month ++
        pad2 (subHours c hoursBack).day ++ "-" ++ pad2 (subHours c hoursBack).hour ++
        "00-064.mp3" ∧
    getZBNewsURL c hoursBack =
      "https://weekondemand.newstalkzb.co.nz/WeekOnDemand/ZB/auckland/" ++
        toString (subHours c hoursBack).year ++ "." ++ pad2 (subHours c hoursBack).month ++
        "." ++ pad2 (subHours c hoursBack).day ++ "-" ++ pad2 (subHours c hoursBack).hour ++
        ".00.00-D.mp3" ∧
    (pad2 (subHours c hoursBack).month).length = 2 ∧
    (pad2 (subHours c hoursBack).day).length = 2 ∧
    (pad2 (subHours c hoursBack).hour).length = 2 := by
  obtain ⟨h1, h2, h3, h4, h5, h6⟩ := hc
  obtain ⟨b1, b2, b3, b4, b5⟩ :=
    subHours_bounds c hoursBack h2 h3 h4
      (le_trans h5 (daysInMonth_le c.year c.month)) h6
  refine ⟨?_, ?_, ?_, ?_, ?_⟩
  · simp only [getRNZNewsURL, formatRNZDate, String.append_assoc, lit_rnz_tail]
  · simp only [getZBNewsURL, formatZBDate, String.append_assoc, lit_zb_tail]
  · exact pad2_length _ (by omega)
  · exact pad2_length _ (by omega)
  · exact pad2_length _ (by omega)

/-- Witness for C5 at the reading 2025-10-11 14:00 with `hoursBack = 0`. -/
theorem C5_resolver_url_format_witness :
    getRNZNewsURL ⟨2025, 10, 11, 14⟩ 0 =
      "https://podcast.radionz.co.nz/news/20251011-1400-064.mp3" ∧
    getZBNewsURL ⟨2025, 10, 11, 14⟩ 0 =
      "https://weekondemand.newstalkzb.co.nz/WeekOnDemand/ZB/auckland/2025.10.11-14.00.00-D.mp3" := by
  have h := C5_resolver_url_format ⟨2025, 10, 11, 14⟩ 0 (by decide)
  exact ⟨by rw [h.1]; rfl, by rw [h.2.1]; rfl⟩

/-- C6.  Subtracting hours in the resolver borrows correctly across
day, month and year boundaries: the absolute hour count drops by
exactly one, validity of the reading is preserved, and at hour 00 on
the 1st of a month the result is the last day of the previous month
(its `daysInMonth`, December 31 when borrowing across a year) at
hour 23, which is the date the Source A URL is then formatted from. -/
theorem C6_resolver_calendar_borrow (c : ClockReading)
    (hc : ValidReading c) (hy : 2 ≤ c.year) :
    hourIndex (subHours c 1) + 1 = hourIndex c ∧
    ValidReading (subHours c 1) ∧
    (c.day = 1 → c.hour = 0 →
      (2 ≤ c.month →
        subHours c 1 = ⟨c.year, c.month - 1, daysInMonth c.year (c.month - 1), 23⟩) ∧
      (c.month = 1 → subHours c 1 = ⟨c.year - 1, 12, 31, 23⟩) ∧
      getRNZNewsURL c 1 = "https://podcast.radionz.co.nz/news/" ++
        formatRNZDate (subHours c 1) ++ "-064.mp3") := by
  refine ⟨hourIndex_subHours_one c hc hy, valid_subHours c 1 hc hy, ?_⟩
  intro hd hh
  refine ⟨?_, ?_, rfl⟩
  · intro hm
    simp [subHours, prevDay, hd, hh, hm, ClockReading.mk.injEq]
  · intro hm
    simp [subHours, prevDay, hd, hh, hm, ClockReading.mk.injEq]

/-- Witness for C6 at 2024-03-01 00:00, which borrows into a leap-year
February. -/
theorem C6_resolver_calendar_borrow_witness :
    subHours ⟨2024, 3, 1, 0⟩ 1 = ⟨2024, 2, 29, 23⟩ ∧
    hourIndex (subHours ⟨2024, 3, 1, 0⟩ 1) + 1 = hourIndex ⟨2024, 3, 1, 0⟩ := by
  have h := C6_resolver_calendar_borrow ⟨2024, 3, 1, 0⟩ (by decide) (by decide)
  refine ⟨?_, h.1⟩
  have h2 := (h.2.2 rfl rfl).1 (by decide)
  rw [h2]
  decide

theorem foldl_refresh_pinned_rnz (cs : List ClockReading) (s : NewsUI)
    (h : String) (hm : s.rnzMarker = some h) :
    (cs.foldl updateNewsButtonTimes s).rnzMarker = some h ∧
    (cs.foldl updateNewsButtonTimes s).rnzLabel = s.rnzLabel := by
  induction cs generalizing s with
  | nil => exact ⟨hm, rfl⟩
  | cons c cs ih =>
    have e1 : (updateNewsButtonTimes s c).rnzMarker = some h := hm
    have e2 : (updateNewsButtonTimes s c).rnzLabel = s.rnzLabel := by
      simp [updateNewsButtonTimes, hm]
    simp only [List.foldl_cons]
    obtain ⟨a, b⟩ := ih (updateNewsButtonTimes s c) e1
    exact ⟨a, by rw [b, e2]⟩

theorem foldl_refresh_pinned_zb (cs : List ClockReading) (s : NewsUI)
    (h : String) (hm : s.zbMarker = some h) :
    (cs.foldl updateNewsButtonTimes s).zbMarker = some h ∧
    (cs.foldl updateNewsButtonTimes s).zbLabel = s.zbLabel := by
  induction cs generalizing s with
  | nil => exact ⟨hm, rfl⟩
  | cons c cs ih =>
    have e1 : (updateNewsButtonTimes s c).zbMarker = some h := hm
    have e2 : (updateNewsButtonTimes s c).zbLabel = s.zbLabel := by
      simp [updateNewsButtonTimes, hm]
    simp only [List.foldl_cons]
    obtain ⟨a, b⟩ := ih (updateNewsButtonTimes s c) e1
    exact ⟨a, by rw [b, e2]⟩

/-- C9.  The periodic clock refresh rewrites a source's bulletin button
label from the clock only when that source's marker is unset; a pinned
label survives any sequence of refreshes unchanged; and selecting a
live station resets both markers to unset. -/
theorem C9_clock_refresh_respects_markers (s : NewsUI) (c : ClockReading) :
    (s.rnzMarker = none →
      (updateNewsButtonTimes s c).rnzLabel = pad2 c.hour ++ ":00" ++ " bulletin") ∧
    (s.zbMarker = none →
      (updateNewsButtonTimes s c).zbLabel = pad2 c.hour ++ ":00" ++ " bulletin") ∧
    (∀ cs : List ClockReading, ∀ h, s.rnzMarker = some h →
      (cs.foldl updateNewsButtonTimes s).rnzLabel = s.rnzLabel) ∧
    (∀ cs : List ClockReading, ∀ h, s.zbMarker = some h →
      (cs.foldl updateNewsButtonTimes s).zbLabel = s.zbLabel) ∧
    (selectLiveStation s c).rnzMarker = none ∧
    (selectLiveStation s c).zbMarker = none := by
  refine ⟨?_, ?_, ?_, ?_, rfl, rfl⟩
  · intro hm
    simp [updateNewsButtonTimes, hm]
  · intro hm
    simp [updateNewsButtonTimes, hm]
  · intro cs h hm
    exact (foldl_refresh_pinned_rnz cs s h hm).2
  · intro cs h hm
    exact (foldl_refresh_pinned_zb cs s h hm).2

/-- Witness for C9: a pinned RNZ label survives two refreshes while the
unset ZB label tracks the clock, and selecting a live station clears
both markers. -/
theorem C9_clock_refresh_respects_markers_witness :
    ([⟨2025, 1, 1, 9⟩, ⟨2025, 1, 1, 10⟩].foldl updateNewsButtonTimes
      ⟨some "08", none, "08:00 bulletin", "07:00 bulletin"⟩).rnzLabel =
      "08:00 bulletin" ∧
    (updateNewsButtonTimes ⟨some "08", none, "08:00 bulletin", "07:00 bulletin"⟩
      ⟨2025, 1, 1, 9⟩).zbLabel = "09:00 bulletin" ∧
    (selectLiveStation ⟨some "08", none, "08:00 bulletin", "07:00 bulletin"⟩
      ⟨2025, 1, 1, 9⟩).rnzMarker = none := by
  have h := C9_clock_refresh_respects_markers
    ⟨some "08", none, "08:00 bulletin", "07:00 bulletin"⟩ ⟨2025, 1, 1, 9⟩
  refine ⟨h.2.2.1 [⟨2025, 1, 1, 9⟩, ⟨2025, 1, 1, 10⟩] "08" rfl, ?_, h.2.2.2.2.1⟩
  rw [h.2.1 rfl]
  rfl

/-- C2.  When both probe attempts fail, the run makes exactly one
`loadStation` call (not two), with the `hoursBack = 1` URL and the
plain display name, shows exactly one failure toast, and sets no
marker. -/
theorem C2_double_failure_single_resolution (ty : NewsType) (name : String)
    (clock : Nat → ClockReading) (outcome : Nat → ProbeOutcome)
    (h0 : outcome 0 = .failed) (h1 : outcome 1 = .failed) :
    loadNewsBulletinRun ty name clock outcome =
      ⟨[⟨getNewsURL ty (clock 1) 1, none, name ++ " News"⟩], 1, none⟩ := by
  simp [loadNewsBulletinRun, tryLoadBulletinRun, h0, h1]

/-- Witness for C2: both attempts of an RNZ probe at 2025-10-11 14:00
fail; the single resolution uses the 13:00 (previous hour) URL. -/
theorem C2_double_failure_single_resolution_witness :
    loadNewsBulletinRun .rnz "RNZ" (fun _ => ⟨2025, 10, 11, 14⟩) (fun _ => .failed) =
      ⟨[⟨"https://podcast.radionz.co.nz/news/20251011-1300-064.mp3", none,
         "RNZ News"⟩], 1, none⟩ := by
  have h := C2_double_failure_single_resolution .rnz "RNZ"
    (fun _ => ⟨2025, 10, 11, 14⟩) (fun _ => .failed) rfl rfl
  rw [h]
  rfl

/-- C3.  When the `hoursBack = 0` attempt fails and the `hoursBack = 1`
attempt becomes playable, the run makes exactly one `loadStation`
call, with the `hoursBack = 1` URL and its two-digit label hour, shows
no failure toast, and sets the source's marker to that label hour. -/
theorem C3_fallback_success_resolution (ty : NewsType) (name : String)
    (clock : Nat → ClockReading) (outcome : Nat → ProbeOutcome)
    (h0 : outcome 0 = .failed) (h1 : outcome 1 = .playable)
    (hv : ValidReading (clock 1)) :
    loadNewsBulletinRun ty name clock outcome =
      ⟨[⟨getNewsURL ty (clock 1) 1, some (pad2 ((subHours (clock 1) 1).hour)),
         name ++ " " ++ pad2 ((subHours (clock 1) 1).hour) ++ ":00 News"⟩], 0,
       some (pad2 ((subHours (clock 1) 1).hour))⟩ ∧
    (pad2 ((subHours (clock 1) 1).hour)).length = 2 := by
  obtain ⟨h1', h2', h3', h4', h5', h6'⟩ := hv
  obtain ⟨_, _, _, _, b5⟩ := subHours_bounds (clock 1) 1 h2' h3' h4'
    (le_trans h5' (daysInMonth_le (clock 1).year (clock 1).month)) h6'
  constructor
  · simp [loadNewsBulletinRun, tryLoadBulletinRun, h0, h1]
  · exact pad2_length _ (by omega)

/-- Witness for C3: an RNZ probe at 2025-10-11 14:00 fails for 14:00
and succeeds for 13:00; the marker and label carry "13". -/
theorem C3_fallback_success_resolution_witness :
    loadNewsBulletinRun .rnz "RNZ" (fun _ => ⟨2025, 10, 11, 14⟩)
      (fun k => if k = 0 then .failed else .playable) =
      ⟨[⟨"https://podcast.radionz.co.nz/news/20251011-1300-064.mp3", some "13",
         "RNZ 13:00 News"⟩], 0, some "13"⟩ := by
  have h := C3_fallback_success_resolution .rnz "RNZ"
    (fun _ => ⟨2025, 10, 11, 14⟩) (fun k => if k = 0 then .failed else .playable)
    rfl rfl (by decide)
  rw [h.1]
  rfl

theorem listStarts_iff (pat l : List Char) :
    listStarts pat l = true ↔ ∃ t, l = pat ++ t := by
  induction pat generalizing l with
  | nil => simp [listStarts]
  | cons p ps ih =>
    cases l with
    | nil => simp [listStarts]
    | cons c cs =>
      simp only [listStarts, Bool.and_eq_true, beq_iff_eq, ih, List.cons_append,
        List.cons.injEq]
      constructor
      · rintro ⟨rfl, t, rfl⟩
        exact ⟨t, rfl, rfl⟩
      · rintro ⟨t, rfl, rfl⟩
        exact ⟨rfl, t, rfl⟩

theorem listHas_iff (pat l : List Char) :
    listHas pat l = true ↔ ∃ pre post, l = pre ++ pat ++ post := by
  induction l with
  | nil =>
    simp only [listHas, List.isEmpty_iff]
    constructor
    · rintro rfl
      exact ⟨[], [], rfl⟩
    · rintro ⟨pre, post, hp⟩
      rcases List.append_eq_nil.mp (List.append_eq_nil.mp hp.symm).1 with ⟨-, h2⟩
      exact h2
  | cons c cs ih =>
    simp only [listHas, Bool.or_eq_true, listStarts_iff, ih]
    constructor
    · rintro (⟨t, ht⟩ | ⟨pre, post, rfl⟩)
      · exact ⟨[], t, by simpa using ht⟩
      · exact ⟨c :: pre, post, rfl⟩
    · rintro ⟨pre, post, hp⟩
      cases pre with
      | nil =>
        left
        exact ⟨post, by simpa using hp⟩
      | cons x xs =>
        right
        simp only [List.cons_append, List.cons.injEq, List.append_assoc] at hp
        exact ⟨xs, post, by simp [hp.2, List.append_assoc]⟩

/-- `strHas` (JavaScript `includes`) means contiguous containment. -/
theorem strHas_iff (s pat : String) :
    strHas s pat = true ↔ ∃ pre post, s.toList = pre ++ pat.toList ++ post :=
  listHas_iff pat.toList s.toList

/-- C10.  The bulletin classifier is total: a parse failure yields
`false`, and on a parsed URL it returns `true` exactly when the path
ends in `.mp3` or the hostname contains one of the two known bulletin
hosts as a substring; consequently any `.mp3` URL, whatever its host,
makes the loaded session a bulletin. -/
theorem C10_isBulletinUrl_total_and_characterized :
    isBulletinUrl none = false ∧
    (∀ p : UrlParts, isBulletinUrl (some p) = true ↔
      (strEnds p.pathname ".mp3" = true ∨
       ∃ host ∈ bulletinHosts,
         ∃ pre post, p.hostname.toList = pre ++ host.toList ++ post)) ∧
    (∀ (p : UrlParts) (name : String), strEnds p.pathname ".mp3" = true →
      stationIsBulletin (some p) name = true) := by
  refine ⟨rfl, ?_, ?_⟩
  · intro p
    simp only [isBulletinUrl, Bool.or_eq_true, List.any_eq_true, strHas_iff]
  · intro p name h
    simp [stationIsBulletin, isBulletinUrl, h]

/-- Witness for C10: an `.mp3` path on an unknown host classifies as a
bulletin, and a hostname containing a known bulletin host matches. -/
theorem C10_isBulletinUrl_total_and_characterized_witness :
    isBulletinUrl none = false ∧
    isBulletinUrl (some ⟨"example.com", "/episode.mp3"⟩) = true ∧
    stationIsBulletin (some ⟨"example.com", "/episode.mp3"⟩) "Some Station" = true ∧
    isBulletinUrl (some ⟨"www.podcast.radionz.co.nz", "/index.html"⟩) = true := by
  have h := C10_isBulletinUrl_total_and_characterized
  refine ⟨h.1, ?_, h.2.2 ⟨"example.com", "/episode.mp3"⟩ "Some Station" (by decide), ?_⟩
  · exact (h.2.1 ⟨"example.com", "/episode.mp3"⟩).2 (Or.inl (by decide))
  · refine (h.2.1 ⟨"www.podcast.radionz.co.nz", "/index.html"⟩).2
      (Or.inr ⟨"podcast.radionz.co.nz", List.mem_cons_self _ _,
        "www.".toList, [], by decide⟩)

theorem applyActs_append (m : Nat → List AudioEvent) (l1 l2 : List Act) :
    applyActs m (l1 ++ l2) = applyActs (applyActs m l1) l2 :=
  List.foldl_append _ _ _ _

theorem applyActs_cons (m : Nat → List AudioEvent) (a : Act) (l : List Act) :
    applyActs m (a :: l) = applyActs (applyAct m a) l := rfl

/-- Removing, in order, exactly the registrations recorded for a handle
leaves that handle with no registrations. -/
theorem applyActs_removeAll (L : List AudioEvent) (m : Nat → List AudioEvent)
    (h : Nat) (hm : m h = L) :
    applyActs m (L.map (Act.remove h)) h = [] := by
  induction L generalizing m with
  | nil => exact hm
  | cons e L ih =>
    simp only [List.map_cons, applyActs, List.foldl_cons]
    refine ih (applyAct m (Act.remove h e)) ?_
    simp [applyAct, hm]

theorem applyActs_addAll (L : List AudioEvent) (m : Nat → List AudioEvent) (h : Nat) :
    applyActs m (L.map (Act.add h)) h = m h ++ L := by
  induction L generalizing m with
  | nil => simp [applyActs]
  | cons e L ih =>
    rw [List.map_cons, applyActs_cons, ih (applyAct m (Act.add h e))]
    simp [applyAct]

theorem applyActs_map_add_ne (L : List AudioEvent) (m : Nat → List AudioEvent)
    (h h₂ : Nat) (hne : h ≠ h₂) :
    applyActs m (L.map (Act.add h₂)) h = m h := by
  induction L generalizing m with
  | nil => rfl
  | cons e L ih =>
    rw [List.map_cons, applyActs_cons, ih (applyAct m (Act.add h₂ e))]
    simp [applyAct, hne]

theorem applyActs_map_remove_ne (L : List AudioEvent) (m : Nat → List AudioEvent)
    (h h₂ : Nat) (hne : h ≠ h₂) :
    applyActs m (L.map (Act.remove h₂)) h = m h := by
  induction L generalizing m with
  | nil => rfl
  | cons e L ih =>
    rw [List.map_cons, applyActs_cons, ih (applyAct m (Act.remove h₂ e))]
    simp [applyAct, hne]

/-- C7.  When `loadStation` runs while a playback handle is live, its
trace pauses the old handle and removes exactly the recorded observer
set before the new handle is created; after the trace, the old handle
has no attached observers, and the new state is a single live handle
carrying exactly the eight lifecycle observers. -/
theorem C7_load_station_supersession (st : PlayerSt)
    (m : Nat → List AudioEvent) (h : Nat)
    (hlive : st.audio = some h)
    (htrack : m h = st.currentAudioListeners)
    (hfresh : h ≠ st.nextHandle)
    (hnew : m st.nextHandle = []) :
    (loadStationStep st).1 =
      Act.pause h :: (st.currentAudioListeners.map (Act.remove h) ++
        Act.create st.nextHandle :: playerEvents.map (Act.add st.nextHandle)) ∧
    applyActs m (loadStationStep st).1 h = [] ∧
    applyActs m (loadStationStep st).1 st.nextHandle = playerEvents ∧
    (loadStationStep st).2 = ⟨some st.nextHandle, playerEvents, st.nextHandle + 1⟩ := by
  have htr : (loadStationStep st).1 =
      (Act.pause h :: st.currentAudioListeners.map (Act.remove h)) ++
        Act.create st.nextHandle :: playerEvents.map (Act.add st.nextHandle) := by
    simp [loadStationStep, hlive]
  refine ⟨by simpa using htr, ?_, ?_, by simp [loadStationStep, hlive]⟩
  · rw [htr, applyActs_append, applyActs_cons]
    have hmid : applyActs (applyAct m (Act.pause h))
        (st.currentAudioListeners.map (Act.remove h)) h = [] :=
      applyActs_removeAll _ _ _ htrack
    rw [applyActs_cons]
    rw [show applyAct (applyActs (applyAct m (Act.pause h))
        (st.currentAudioListeners.map (Act.remove h)))
        (Act.create st.nextHandle) =
      applyActs (applyAct m (Act.pause h))
        (st.currentAudioListeners.map (Act.remove h)) from rfl]
    rw [applyActs_map_add_ne _ _ _ _ hfresh]
    exact hmid
  · rw [htr, applyActs_append, applyActs_cons]
    have hmid : applyActs (applyAct m (Act.pause h))
        (st.currentAudioListeners.map (Act.remove h)) st.nextHandle =
        m st.nextHandle :=
      applyActs_map_remove_ne _ _ _ _ (Ne.symm hfresh)
    rw [applyActs_cons]
    rw [show applyAct (applyActs (applyAct m (Act.pause h))
        (st.currentAudioListeners.map (Act.remove h)))
        (Act.create st.nextHandle) =
      applyActs (applyAct m (Act.pause h))
        (st.currentAudioListeners.map (Act.remove h)) from rfl]
    rw [applyActs_addAll, hmid, hnew]
    rfl

/-- Witness for C7: superseding the session created by a first
`loadStation` detaches all eight observers of handle 0 before handle 1
exists, leaving handle 0 observer-free. -/
theorem C7_load_station_supersession_witness :
    applyActs (fun k => if k = 0 then playerEvents else [])
      (loadStationStep ⟨some 0, playerEvents, 1⟩).1 0 = [] ∧
    applyActs (fun k => if k = 0 then playerEvents else [])
      (loadStationStep ⟨some 0, playerEvents, 1⟩).1 1 = playerEvents ∧
    (loadStationStep ⟨some 0, playerEvents, 1⟩).2 = ⟨some 1, playerEvents, 2⟩ := by
  have h := C7_load_station_supersession ⟨some 0, playerEvents, 1⟩
    (fun k => if k = 0 then playerEvents else []) 0 rfl rfl (by decide) rfl
  exact ⟨h.2.1, h.2.2.1, h.2.2.2⟩

/-- C1 counterexample.  A pending probe (handle 0, both observers
attached) superseded by a new `loadNewsBulletin` run: the new probe
handle 1 is created while handle 0's two observers are still attached,
and no detachment of handle 0 occurs anywhere in the combined trace —
refuting the claim that a superseded probe's observers are detached
before the new probe's resources are created. -/
theorem C1_probe_supersession_counterexample :
    (probeAttemptStart ⟨none, 0⟩).2 = ⟨some 0, 1⟩ ∧
    (probeAttemptStart ⟨some 0, 1⟩).1 =
      [Act.pause 0, Act.clearSrc 0, Act.create 1,
       Act.add 1 .canplay, Act.add 1 .error] ∧
    applyActs (fun _ => [])
      ((probeAttemptStart ⟨none, 0⟩).1 ++ (probeAttemptStart ⟨some 0, 1⟩).1) 0 =
      [AudioEvent.canplay, AudioEvent.error] ∧
    Act.remove 0 AudioEvent.canplay ∉
      (probeAttemptStart ⟨none, 0⟩).1 ++ (probeAttemptStart ⟨some 0, 1⟩).1 ∧
    Act.remove 0 AudioEvent.error ∉
      (probeAttemptStart ⟨none, 0⟩).1 ++ (probeAttemptStart ⟨some 0, 1⟩).1 := by
  decide

/-- C1 amended.  At most one probe handle is current at any time, and
the error-driven internal retry does detach both observers and release
the failed handle before the next attempt's handle is created; but
when a pending probe is superseded by a new run, only its handle is
released (paused, source cleared) — its two observers stay attached. -/
theorem C1_probe_supersession_amended (st : ProbeSt)
    (m : Nat → List AudioEvent) (h : Nat)
    (hm : m h = [AudioEvent.canplay, AudioEvent.error])
    (hfresh : h ≠ st.nextHandle) :
    (probeErrorRetry h st).1 =
      [Act.remove h .canplay, Act.remove h .error, Act.pause h, Act.clearSrc h,
       Act.create st.nextHandle, Act.add st.nextHandle .canplay,
       Act.add st.nextHandle .error] ∧
    applyActs m (probeErrorRetry h st).1 h = [] ∧
    (probeErrorRetry h st).2 = ⟨some st.nextHandle, st.nextHandle + 1⟩ ∧
    (st.currentTestAudio = some h →
      (probeAttemptStart st).1 =
        [Act.pause h, Act.clearSrc h, Act.create st.nextHandle,
         Act.add st.nextHandle .canplay, Act.add st.nextHandle .error] ∧
      applyActs m (probeAttemptStart st).1 h =
        [AudioEvent.canplay, AudioEvent.error] ∧
      (probeAttemptStart st).2 = ⟨some st.nextHandle, st.nextHandle + 1⟩) := by
  have hfresh' : ¬(h = st.nextHandle) := hfresh
  refine ⟨by simp [probeErrorRetry, probeAttemptStart], ?_, ?_, ?_⟩
  · simp [probeErrorRetry, probeAttemptStart, applyActs, applyAct, hm, hfresh']
  · simp [probeErrorRetry, probeAttemptStart]
  · intro hpend
    refine ⟨by simp [probeAttemptStart, hpend], ?_, by simp [probeAttemptStart, hpend]⟩
    simp [probeAttemptStart, hpend, applyActs, applyAct, hm, hfresh']

/-- Witness for C1's amended theorem at handle 0 with next handle 1. -/
theorem C1_probe_supersession_amended_witness :
    applyActs (fun k => if k = 0 then [AudioEvent.canplay, AudioEvent.error] else [])
      (probeErrorRetry 0 ⟨some 0, 1⟩).1 0 = [] ∧
    (probeErrorRetry 0 ⟨some 0, 1⟩).2 = ⟨some 1, 2⟩ ∧
    applyActs (fun k => if k = 0 then [AudioEvent.canplay, AudioEvent.error] else [])
      (probeAttemptStart ⟨some 0, 1⟩).1 0 = [AudioEvent.canplay, AudioEvent.error] := by
  have h := C1_probe_supersession_amended ⟨some 0, 1⟩
    (fun k => if k = 0 then [AudioEvent.canplay, AudioEvent.error] else []) 0
    rfl (by decide)
  exact ⟨h.2.1, h.2.2.1, (h.2.2.2 rfl).2.1⟩

/-- C8 counterexample.  A state whose duration is finite and positive
but whose reported seekable range is empty is not seekable, yet the
media-session `seekto` handler still moves the playback position —
refuting the claim that every seek operation is a no-op unless the
session is seekable. -/
theorem C8_seek_guard_counterexample :
    isSeekableAudio (some ⟨some 100, 0, 0⟩) = false ∧
    msSeekTo (some ⟨some 100, 0, 0⟩) (some 50) = some ⟨some 100, 0, 50⟩ ∧
    some (⟨some 100, 0, 50⟩ : AudioSt) ≠ some ⟨some 100, 0, 0⟩ := by
  refine ⟨rfl, ?_, by decide⟩
  norm_num [msSeekTo, jsMin, jsMax]

/-- C8 amended.  The in-page seek controls (skip back/forward and the
scrub slider) are no-ops unless the session is seekable (finite
positive duration and a non-empty seekable range) and clamp their
target into `[0, duration]`.  The media-session seek handlers are
no-ops when the handle is absent, the duration is not finite, or (for
`seekto`) the seek time is undefined; when they act they ignore
duration positivity and the seekable range: `seekto` clamps its target
into `[0, duration]`; `seekbackward` clamps only from below at 0, its
target staying within `[0, duration]` whenever the effective offset
(`seekOffset`, defaulting to 15) is nonnegative and the position was
at most the duration; `seekforward` clamps only from above at the
duration, its target staying within `[0, duration]` whenever the
duration, the position and the effective offset are nonnegative. -/
theorem C8_seek_clamping_amended :
    (∀ (s : Option AudioSt) (v : ℚ), isSeekableAudio s = false →
      skipBack s = s ∧ skipForward s = s ∧ scrubInput s v = s) ∧
    (∀ (a : AudioSt) (d v : ℚ), a.duration = some d →
      0 ≤ a.currentTime → a.currentTime ≤ d → isSeekableAudio (some a) = true →
      (skipBack (some a) =
          some { a with currentTime := jsMax 0 (a.currentTime - 15) } ∧
        0 ≤ jsMax 0 (a.currentTime - 15) ∧ jsMax 0 (a.currentTime - 15) ≤ d) ∧
      (skipForward (some a) =
          some { a with currentTime := jsMin d (a.currentTime + 15) } ∧
        0 ≤ jsMin d (a.currentTime + 15) ∧ jsMin d (a.currentTime + 15) ≤ d) ∧
      (scrubInput (some a) v =
          some { a with currentTime := jsMax 0 (jsMin d v) } ∧
        0 ≤ jsMax 0 (jsMin d v) ∧ jsMax 0 (jsMin d v) ≤ d)) ∧
    (∀ t, msSeekTo none t = none) ∧
    (∀ (a : AudioSt) (t : Option ℚ), a.duration = none → msSeekTo (some a) t = some a) ∧
    (∀ a : AudioSt, msSeekTo (some a) none = some a) ∧
    (∀ (a : AudioSt) (d t : ℚ), a.duration = some d → 0 ≤ d →
      msSeekTo (some a) (some t) =
        some { a with currentTime := jsMin d (jsMax 0 t) } ∧
      0 ≤ jsMin d (jsMax 0 t) ∧ jsMin d (jsMax 0 t) ≤ d) ∧
    (∀ off, msSeekBackward none off = none) ∧
    (∀ (a : AudioSt) (off : Option ℚ), a.duration = none →
      msSeekBackward (some a) off = some a) ∧
    (∀ off, msSeekForward none off = none) ∧
    (∀ (a : AudioSt) (off : Option ℚ), a.duration = none →
      msSeekForward (some a) off = some a) ∧
    (∀ (a : AudioSt) (d : ℚ) (off : Option ℚ), a.duration = some d →
      msSeekBackward (some a) off =
        some { a with currentTime := jsMax 0 (a.currentTime - seekOffsetOr15 off) } ∧
      0 ≤ jsMax 0 (a.currentTime - seekOffsetOr15 off) ∧
      (0 ≤ seekOffsetOr15 off → 0 ≤ d → a.currentTime ≤ d →
        jsMax 0 (a.currentTime - seekOffsetOr15 off) ≤ d)) ∧
    (∀ (a : AudioSt) (d : ℚ) (off : Option ℚ), a.duration = some d →
      msSeekForward (some a) off =
        some { a with currentTime := jsMin d (a.currentTime + seekOffsetOr15 off) } ∧
      jsMin d (a.currentTime + seekOffsetOr15 off) ≤ d ∧
      (0 ≤ d → 0 ≤ a.currentTime → 0 ≤ seekOffsetOr15 off →
        0 ≤ jsMin d (a.currentTime + seekOffsetOr15 off))) ∧
    seekOffsetOr15 none = 15 := by
  refine ⟨?_, ?_, fun t => by cases t <;> rfl, ?_, fun a => rfl, ?_,
    fun off => rfl, ?_, fun off => rfl, ?_, ?_, ?_, rfl⟩
  · intro s v h
    exact ⟨by simp [skipBack, h], by simp [skipForward, h], by simp [scrubInput, h]⟩
  · intro a d v hdur h0 hd hseek
    have hd0 : (0 : ℚ) < d := by
      have hs := hseek
      simp [isSeekableAudio, hdur] at hs
      exact hs.1
    refine ⟨⟨by simp [skipBack, hseek], ?_, ?_⟩,
      ⟨by simp [skipForward, hseek, hdur], ?_, ?_⟩,
      ⟨by simp [scrubInput, hseek, hdur], ?_, ?_⟩⟩
    · unfold jsMax; split_ifs <;> linarith
    · unfold jsMax; split_ifs <;> linarith
    · unfold jsMin; split_ifs <;> linarith
    · unfold jsMin; split_ifs <;> linarith
    · unfold jsMax jsMin; split_ifs <;> linarith
    · unfold jsMax jsMin; split_ifs <;> linarith
  · intro a t hdur
    cases t <;> simp [msSeekTo, hdur]
  · intro a d t hdur h0d
    refine ⟨by simp [msSeekTo, hdur], ?_, ?_⟩
    · unfold jsMax jsMin; split_ifs <;> linarith
    · unfold jsMax jsMin; split_ifs <;> linarith
  · intro a off hdur
    simp [msSeekBackward, hdur]
  · intro a off hdur
    simp [msSeekForward, hdur]
  · intro a d off hdur
    refine ⟨by simp [msSeekBackward, hdur], ?_, ?_⟩
    · unfold jsMax; split_ifs <;> linarith
    · intro h1 h2 h3
      unfold jsMax; split_ifs <;> linarith
  · intro a d off hdur
    refine ⟨by simp [msSeekForward, hdur], ?_, ?_⟩
    · unfold jsMin; split_ifs <;> linarith
    · intro h1 h2 h3
      unfold jsMin; split_ifs <;> linarith

/-- Witness for C8's amended theorem: on a live stream (duration not
finite) every seek path leaves the state unchanged. -/
theorem C8_seek_clamping_amended_witness :
    skipBack (some ⟨none, 0, 7⟩) = some ⟨none, 0, 7⟩ ∧
    skipForward (some ⟨none, 0, 7⟩) = some ⟨none, 0, 7⟩ ∧
    scrubInput (some ⟨none, 0, 7⟩) 50 = some ⟨none, 0, 7⟩ ∧
    msSeekTo (some ⟨none, 0, 7⟩) (some 50) = some ⟨none, 0, 7⟩ ∧
    msSeekBackward (some ⟨none, 0, 7⟩) (some 15) = some ⟨none, 0, 7⟩ ∧
    msSeekForward (some ⟨none, 0, 7⟩) none = some ⟨none, 0, 7⟩ := by
  have h := C8_seek_clamping_amended
  have hno := h.1 (some ⟨none, 0, 7⟩) 50 rfl
  exact ⟨hno.1, hno.2.1, hno.2.2, h.2.2.2.1 ⟨none, 0, 7⟩ (some 50) rfl,
    h.2.2.2.2.2.2.2.1 ⟨none, 0, 7⟩ (some 15) rfl,
    h.2.2.2.2.2.2.2.2.2.1 ⟨none, 0, 7⟩ none rfl⟩

/-- C4.  Evaluation at the failing input: after a success that
displayed track "A - B", two failures, and a second success whose
extracted track is unchanged, the counter is not reset (second
conjunct); the next failure is therefore the third and emits the
warning toast, although under the claimed reset-on-any-success
semantics it would be the first failure of a new streak. -/
theorem C4_metadata_counter_failing_input :
    runFetches bfmInit
      [FetchOutcome.success (some "A - B"), .failure, .failure,
       .success (some "A - B"), .failure] = ⟨3, some "A - B", 1⟩ ∧
    fetchStep ⟨2, some "A - B", 0⟩ (FetchOutcome.success (some "A - B")) =
      ⟨2, some "A - B", 0⟩ := by
  constructor <;> decide

end RadioLive
